import Mathlib

/-!
Shallow embedding of `src/telegrambot.py` (a Telegram quiz bot).

Modelling conventions:
* JSON documents are the inductive `JSON`; an on-disk document is a
  `DiskDoc := Option (Except Unit JSON)` where `none` models a missing file
  (Python `FileNotFoundError` / `os.path.exists` false), `some (.error ())`
  models a file whose contents fail to decode (`json.JSONDecodeError`), and
  `some (.ok j)` a file decoding to the JSON value `j`.
* Python exceptions that escape a function are modelled with `Except PyErr`.
  `json.load(...).get(...)` on a decoded value that is not an object raises
  `AttributeError` in Python; the embedding returns `.error .attributeError`.
* Python dicts are association lists with first-match lookup; dict update
  keeps the position of an existing key and appends a new key at the end,
  exactly as CPython insertion order does.
* Telegram user ids are integers, while keys read back from the stats JSON
  document are strings; `PyKey` is the sum of the two, with Python's
  `int != str` disequality given by constructor disjointness.
* Python float arithmetic in `calculate_percentage` is modelled exactly over
  `ℚ`; Python 3 `round` (round-half-to-even) is `pyRound`.
* `str.split()` / `str.strip()` whitespace is modelled by the ASCII
  whitespace characters (space, tab, LF, VT, FF, CR); non-ASCII Unicode
  whitespace is elided. `str.lower()` is modelled by the ASCII case map.
-/

namespace TelegramBot

/-- JSON values, used for the `answers.json` and `stats.json` documents. -/
inductive JSON where
  | null : JSON
  | bool : Bool → JSON
  | num : Int → JSON
  | str : String → JSON
  | arr : List JSON → JSON
  | obj : List (String × JSON) → JSON

/-- Python exceptions that can escape the modelled functions. -/
inductive PyErr where
  | attributeError : PyErr
  | zeroDivisionError : PyErr
deriving DecidableEq, Repr

/-- An on-disk document: missing, undecodable, or a decoded JSON value. -/
abbrev DiskDoc : Type := Option (Except Unit JSON)

/-- Python `dict.get(k, dflt)` on the field list of a JSON object. -/
def jGet (fields : List (String × JSON)) (k : String) (dflt : JSON) : JSON :=
  match fields.find? (fun p => p.1 == k) with
  | some p => p.2
  | none => dflt

/-- Python `isinstance(x, list) and all(isinstance(e, str) for e in x)`,
returning the strings when the check passes. -/
def asStringList : JSON → Option (List String)
  | .arr items => items.mapM (fun v => match v with | .str s => some s | _ => none)
  | _ => none

/-- Embedding of `load_answer_key` (src/telegrambot.py lines 35-54).
`FileNotFoundError`, `json.JSONDecodeError` and the `ValueError` raised by the
shape check are caught and yield `[]`; but `data.get('answers', [])` on a
decoded document whose top level is not an object raises an uncaught
`AttributeError`. -/
def load_answer_key (doc : DiskDoc) : Except PyErr (List String) :=
  match doc with
  | none => .ok []
  | some (.error _) => .ok []
  | some (.ok (.obj fs)) =>
    match asStringList (jGet fs "answers" (.arr [])) with
    | some answers => .ok answers
    | none => .ok []
  | some (.ok _) => .error .attributeError

/-- The ASCII whitespace characters stripped by Python `str.split()` and
`str.strip()` (space, tab, LF, VT, FF, CR). -/
def isPySpace (c : Char) : Bool :=
  c.toNat == 32 || c.toNat == 9 || c.toNat == 10 ||
  c.toNat == 11 || c.toNat == 12 || c.toNat == 13

/-- Python `str.lower()` on one character (ASCII case map). -/
def pyToLower (c : Char) : Char :=
  if 65 ≤ c.toNat ∧ c.toNat ≤ 90 then Char.ofNat (c.toNat + 32) else c

/-- Embedding of `normalize_answer` (src/telegrambot.py lines 58-60):
`''.join(answer.split()).lower()`. `split()` discards every whitespace
character and `''.join` concatenates the remaining runs, so the composite
removes exactly the whitespace characters; then each character is lowercased. -/
def normalize_answer (s : String) : String :=
  ⟨((s.data.filter (fun c => !isPySpace c)).map pyToLower)⟩

/-- Python `text.strip()`: remove leading and trailing whitespace. -/
def pyStrip (s : String) : List Char :=
  ((s.data.dropWhile isPySpace).reverse.dropWhile isPySpace).reverse

/-- A key of the in-memory stats dict. Records parsed from `stats.json` are
keyed by JSON object keys (strings); `submit_answers` indexes the same dict
with the integer Telegram user id. Python `int` and `str` never compare
equal, which the two constructors capture. -/
inductive PyKey where
  | str : String → PyKey
  | int : Int → PyKey
deriving DecidableEq, Repr

/-- A per-user stats record `{first_name, last_name, scores}` (the shape
written by `submit_answers` and documented for `stats.json`). -/
structure UserRecord where
  first_name : String
  last_name : Option String
  scores : List Int
deriving DecidableEq, Repr

/-- The in-memory stats mapping, a Python dict in insertion order. -/
abbrev Stats : Type := List (PyKey × UserRecord)

/-- Python dict lookup (`d[k]` / `k in d`), as an option. -/
def dictGet (d : Stats) (k : PyKey) : Option UserRecord :=
  match d.find? (fun p => p.1 == k) with
  | some p => some p.2
  | none => none

/-- Python dict assignment `d[k] = v`: replace in place if the key exists,
else append (CPython insertion order). -/
def dictSet (d : Stats) (k : PyKey) (v : UserRecord) : Stats :=
  if d.any (fun p => p.1 == k) then
    d.map (fun p => if p.1 == k then (k, v) else p)
  else
    d ++ [(k, v)]

/-- Interpretation of one JSON user value as a record. The source keeps the
raw dict and only indexes `['scores']` (and the name fields) later; the
embedding reads the three documented fields eagerly, with Python-dict
defaults that no settled claim depends on. -/
def recordOfJSON (v : JSON) : UserRecord :=
  match v with
  | .obj fs =>
    { first_name := match jGet fs "first_name" .null with
        | .str s => s
        | _ => ""
      last_name := match jGet fs "last_name" .null with
        | .str s => some s
        | _ => none
      scores := match jGet fs "scores" (.arr []) with
        | .arr items => items.filterMap (fun e => match e with | .num n => some n | _ => none)
        | _ => [] }
  | _ => { first_name := "", last_name := none, scores := [] }

/-- The `users` value of a decoded stats document, as an in-memory mapping.
JSON object keys are strings, so every key is a `PyKey.str`. -/
def statsOfUsersJSON (j : JSON) : Stats :=
  match j with
  | .obj fs => fs.map (fun p => (PyKey.str p.1, recordOfJSON p.2))
  | _ => []

/-- Serialization of a key for `json.dump`, which writes int dict keys as
their decimal string. -/
def keyStr : PyKey → String
  | .str s => s
  | .int n => toString n

/-- Serialization of the stats mapping back to the `users` JSON object. -/
def usersJSONOfStats (stats : Stats) : JSON :=
  .obj (stats.map (fun p =>
    (keyStr p.1, JSON.obj
      [("first_name", .str p.2.first_name),
       ("last_name", match p.2.last_name with | some s => .str s | none => .null),
       ("scores", .arr (p.2.scores.map (fun n => .num n)))])))

/-- Per-user session states stored in `user_states` (the `unset` state of the
spec is absence from the dict). -/
inductive SessionState where
  | test_sent : SessionState
  | answers_submitted : SessionState
deriving DecidableEq, Repr

/-- Lookup in the `user_states` dict (`user_states.get(user_id)`). -/
def statesGet (d : List (Int × SessionState)) (uid : Int) : Option SessionState :=
  match d.find? (fun p => p.1 == uid) with
  | some p => some p.2
  | none => none

/-- Assignment `user_states[user_id] = s`. -/
def statesSet (d : List (Int × SessionState)) (uid : Int) (s : SessionState) :
    List (Int × SessionState) :=
  if d.any (fun p => p.1 == uid) then
    d.map (fun p => if p.1 == uid then (uid, s) else p)
  else
    d ++ [(uid, s)]

/-- One row of the Excel export: name, surname, total correct. -/
abbrev ExcelRow : Type := String × Option String × Int

/-- The process-plus-disk state the handlers mutate: the `user_states` dict,
the `cached_stats` global, the two durable documents, and a ghost counter
`score_calls` incremented each time the scoring loop of `submit_answers`
runs (used to express that a path never re-invokes scoring). -/
structure BotState where
  user_states : List (Int × SessionState)
  cached_stats : Option Stats
  disk_stats : DiskDoc
  disk_excel : Option (List ExcelRow)
  score_calls : Nat

/-- Embedding of `load_stats` (src/telegrambot.py lines 62-75): return the
cache when populated; a missing file or a `json.JSONDecodeError` yields `{}`;
otherwise `json.load(file).get('users', {})` — which raises an uncaught
`AttributeError` when the decoded document is not an object. -/
def load_stats (st : BotState) : Except PyErr (Stats × BotState) :=
  match st.cached_stats with
  | some s => .ok (s, st)
  | none =>
    match st.disk_stats with
    | none => .ok ([], { st with cached_stats := some [] })
    | some (.error _) => .ok ([], { st with cached_stats := some [] })
    | some (.ok (.obj fs)) =>
      let s := statsOfUsersJSON (jGet fs "users" (.obj []))
      .ok (s, { st with cached_stats := some s })
    | some (.ok _) => .error .attributeError

/-- Embedding of `save_stats` (src/telegrambot.py lines 77-88): update the
cache, then write `{"users": stats}` to disk (a write error would be logged
and swallowed; the write is modelled as succeeding). -/
def save_stats (st : BotState) (stats : Stats) : BotState :=
  { st with
    cached_stats := some stats
    disk_stats := some (.ok (.obj [("users", usersJSONOfStats stats)])) }

/-- Embedding of `save_stats_to_excel` (src/telegrambot.py lines 90-104):
write one row per user with name, surname and `sum(scores)`. -/
def save_stats_to_excel (st : BotState) (stats : Stats) : BotState :=
  { st with
    disk_excel := some (stats.map (fun p =>
      (p.2.first_name, p.2.last_name, p.2.scores.sum))) }

/-- Python 3 `round` on a rational: nearest integer, ties to the even one. -/
def pyRound (q : ℚ) : ℤ :=
  if q - ⌊q⌋ < 1 / 2 then ⌊q⌋
  else if 1 / 2 < q - ⌊q⌋ then ⌊q⌋ + 1
  else if ⌊q⌋ % 2 = 0 then ⌊q⌋ else ⌊q⌋ + 1

/-- Python true division, which raises `ZeroDivisionError` on a zero divisor. -/
def pyDiv (a b : ℚ) : Except PyErr ℚ :=
  if b = 0 then .error .zeroDivisionError else .ok (a / b)

/-- Embedding of `calculate_percentage` (src/telegrambot.py lines 185-189):
`0` when `total_questions == 0`, else `round(correct / total * 100)`. -/
def calculate_percentage (correct total : Int) : Except PyErr Int :=
  if total = 0 then .ok 0
  else (pyDiv (correct : ℚ) (total : ℚ)).map (fun q => pyRound (q * 100))

/-- One iteration of the scoring loop of `submit_answers` (lines 158-162):
on a match increment the count, otherwise append `(i + 1, answer)` to the
mistake list. `p` is the `(i, answer)` pair from `enumerate`. -/
def scoreStep (key : List String) (acc : Nat × List (Nat × Char)) (p : Nat × Char) :
    Nat × List (Nat × Char) :=
  if p.1 < key.length ∧
      normalize_answer (String.singleton p.2) = normalize_answer (key.getD p.1 "") then
    (acc.1 + 1, acc.2)
  else
    (acc.1, acc.2 ++ [(p.1 + 1, p.2)])

/-- The scoring loop `for i, answer in enumerate(user_answers)` of
`submit_answers`, producing `(correct_answers, incorrect_answers)`. -/
def score (user_answers : List Char) (key : List String) : Nat × List (Nat × Char) :=
  user_answers.enum.foldl (scoreStep key) (0, [])

/-- The first-attempt update of `submit_answers` (lines 168-177): when the
user id is absent, or present with an empty `scores` list, set/replace the
record with `{first_name, last_name, scores: [correct_answers]}`; otherwise
leave the mapping unchanged (the repeat attempt is only logged). -/
def record_first_attempt (stats : Stats) (uid : PyKey) (fn : String)
    (ln : Option String) (correct : Int) : Stats :=
  match dictGet stats uid with
  | none => dictSet stats uid ⟨fn, ln, [correct]⟩
  | some r =>
    if r.scores.length = 0 then dictSet stats uid ⟨fn, ln, [correct]⟩
    else stats

/-- Messages the bot sends back, abstracted to their constructors. -/
inductive Reply where
  | wrongLength : Reply
  | alreadySubmitted : Reply
  | genericError : Reply
  | scoreReport : Nat → Nat → Int → List (Nat × Char) → Reply
  | statsText : String → Reply
deriving DecidableEq, Repr

/-- Embedding of `submit_answers` (src/telegrambot.py lines 142-183). The
result is the state after the mutations performed before returning or
raising, the replies sent so far, and the exception that escaped, if any.
`key` is the module-level `ANSWER_KEY`. -/
def submit_answers (key : List String) (st : BotState) (uid : Int) (fn : String)
    (ln : Option String) (text : String) : BotState × List Reply × Option PyErr :=
  let user_answers := pyStrip text
  if user_answers.length ≠ key.length then
    (st, [.wrongLength], none)
  else
    let res := score user_answers key
    let st1 := { st with score_calls := st.score_calls + 1 }
    match calculate_percentage (res.1 : Int) (key.length : Int) with
    | .error e => (st1, [], some e)
    | .ok pct =>
      let reply := Reply.scoreReport res.1 key.length pct res.2
      match load_stats st1 with
      | .error e => (st1, [reply], some e)
      | .ok (stats, st2) =>
        let stats2 := record_first_attempt stats (.int uid) fn ln (res.1 : Int)
        let st3 := save_stats_to_excel (save_stats st2 stats2) stats2
        ({ st3 with user_states := statesSet st3.user_states uid .answers_submitted },
         [reply], none)

/-- Embedding of `handle_message` (src/telegrambot.py lines 204-214): a user
whose session state is `answers_submitted` gets the "already submitted"
notice; otherwise the message goes to `submit_answers`, whose exceptions the
catch-all turns into a generic failure notice. -/
def handle_message (key : List String) (st : BotState) (uid : Int) (fn : String)
    (ln : Option String) (text : String) : BotState × List Reply :=
  if statesGet st.user_states uid = some .answers_submitted then
    (st, [.alreadySubmitted])
  else
    match submit_answers key st uid fn ln text with
    | (st', rs, none) => (st', rs)
    | (st', rs, some _) => (st', rs ++ [.genericError])

/-- Python `sum(scores)` for one record. -/
def userTotal (r : UserRecord) : Int := r.scores.sum

/-- The `sorted(stats.items(), key=lambda x: sum(x[1]['scores']), reverse=True)`
step of `show_stats`: a stable sort, descending by total. -/
def sorted_stats (stats : Stats) : Stats :=
  stats.mergeSort (fun a b => decide (userTotal b.2 ≤ userTotal a.2))

/-- Python `str` of an absent last name: an `f-string` prints `None`. -/
def pyShowOpt : Option String → String
  | some s => s
  | none => "None"

/-- One line of the `show_stats` response for a record and its percentage. -/
def statsLine (r : UserRecord) (pct : Int) : String :=
  r.first_name ++ " " ++ pyShowOpt r.last_name ++ ": " ++ toString (userTotal r) ++
    " правильных ответов (" ++ toString pct ++ "%)\n"

/-- The response-building loop of `show_stats`: for each user, in sorted
order, a line with the total and `calculate_percentage(total, len(key))`. -/
def show_stats_lines (total_questions : Int) : Stats → Except PyErr String
  | [] => .ok ""
  | p :: rest =>
    match calculate_percentage (userTotal p.2) total_questions with
    | .error e => .error e
    | .ok pct =>
      match show_stats_lines total_questions rest with
      | .error e => .error e
      | .ok restStr => .ok (statsLine p.2 pct ++ restStr)

/-- Embedding of `show_stats` (src/telegrambot.py lines 191-202): load the
stats, sort descending by `sum(scores)`, render one line per user after the
header. -/
def show_stats (key : List String) (st : BotState) : Except PyErr (String × BotState) :=
  match load_stats st with
  | .error e => .error e
  | .ok (stats, st') =>
    match show_stats_lines (key.length : Int) (sorted_stats stats) with
    | .error e => .error e
    | .ok body => .ok ("Статистика:\n" ++ body, st')

/-- The loop guard of `scoreStep`, as a boolean of the index and character
(used to state claim C6). -/
def stepMatchB (key : List String) (i : Nat) (a : Char) : Bool :=
  decide (i < key.length ∧
    normalize_answer (String.singleton a) = normalize_answer (key.getD i ""))

/-- The claim's per-position test: position `i` matches when the normalized
submitted character equals the normalized key entry (no bound guard; the
claim quantifies over equal-length inputs). -/
def matchAt (s : List Char) (key : List String) (i : Nat) : Bool :=
  decide (normalize_answer (String.singleton (s.getD i ' ')) =
    normalize_answer (key.getD i ""))

/-- Count of matching positions of the tail starting at index `i`. -/
def cntFrom (key : List String) : Nat → List Char → Nat
  | _, [] => 0
  | i, a :: rest => (if stepMatchB key i a then 1 else 0) + cntFrom key (i + 1) rest

/-- Mistake entries `(i + 1, char)` of the tail starting at index `i`. -/
def misFrom (key : List String) : Nat → List Char → List (Nat × Char)
  | _, [] => []
  | i, a :: rest =>
    (if stepMatchB key i a then ([] : List (Nat × Char)) else [(i + 1, a)]) ++
      misFrom key (i + 1) rest

/-- The value `calculate_percentage` returns (it never actually errors). -/
def pctValue (c t : Int) : Int :=
  match calculate_percentage c t with
  | .ok v => v
  | .error _ => 0

/-! Helper lemmas about the dict model. -/

theorem dictGet_cons (p : PyKey × UserRecord) (d : Stats) (k : PyKey) :
    dictGet (p :: d) k = if p.1 = k then some p.2 else dictGet d k := by
  by_cases h : p.1 = k <;> simp [dictGet, List.find?_cons, h]

theorem dictSet_cons_ne (p : PyKey × UserRecord) (d : Stats) (k : PyKey)
    (v : UserRecord) (h : p.1 ≠ k) : dictSet (p :: d) k v = p :: dictSet d k v := by
  by_cases hd : d.any (fun q => q.1 == k) <;>
    simp [dictSet, List.any_cons, h, hd]

theorem dictGet_dictSet_self (d : Stats) (k : PyKey) (v : UserRecord) :
    dictGet (dictSet d k v) k = some v := by
  induction d with
  | nil => simp [dictGet, dictSet, List.find?_cons]
  | cons p rest ih =>
    by_cases h : p.1 = k
    · have hany : (p :: rest).any (fun q => q.1 == k) = true := by
        simp [List.any_cons, h]
      simp only [dictSet, hany, if_pos, List.map_cons]
      simp [h, dictGet_cons]
    · rw [dictSet_cons_ne p rest k v h, dictGet_cons]
      simp [h, ih]

/-- C1. First-attempt-only policy: when the user is absent from the stats
mapping or has an empty scores list, `record_first_attempt` sets the record
to `{firstName, lastName, scores: [c1]}`; any subsequent call for the same
user, with any names and any correct-count `c2`, leaves the mapping (and so
the stored record and its scores `[c1]`) unchanged. -/
theorem first_attempt_only_policy (stats : Stats) (uid : PyKey) (fn : String)
    (ln : Option String) (c : Int) (fn2 : String) (ln2 : Option String) (c2 : Int)
    (h : dictGet stats uid = none ∨ ∃ r, dictGet stats uid = some r ∧ r.scores = []) :
    dictGet (record_first_attempt stats uid fn ln c) uid =
      some { first_name := fn, last_name := ln, scores := [c] } ∧
    record_first_attempt (record_first_attempt stats uid fn ln c) uid fn2 ln2 c2 =
      record_first_attempt stats uid fn ln c := by
  have hset : record_first_attempt stats uid fn ln c =
      dictSet stats uid { first_name := fn, last_name := ln, scores := [c] } := by
    rcases h with h | ⟨r, hr, hsc⟩
    · simp [record_first_attempt, h]
    · simp [record_first_attempt, hr, hsc]
  have hget : dictGet (record_first_attempt stats uid fn ln c) uid =
      some { first_name := fn, last_name := ln, scores := [c] } := by
    rw [hset]; exact dictGet_dictSet_self stats uid _
  refine ⟨hget, ?_⟩
  generalize hs : record_first_attempt stats uid fn ln c = s1 at hget ⊢
  simp [record_first_attempt, hget]

/-- Concrete instance of C1: a fresh user 7 gets scores `[4]`, and a second
submission with count 9 changes nothing. -/
theorem first_attempt_only_policy_witness :
    (dictGet [] (PyKey.int 7) = none ∨
      ∃ r, dictGet [] (PyKey.int 7) = some r ∧ r.scores = []) ∧
    (dictGet (record_first_attempt [] (PyKey.int 7) "Ann" none 4) (PyKey.int 7) =
      some { first_name := "Ann", last_name := none, scores := [4] } ∧
    record_first_attempt (record_first_attempt [] (PyKey.int 7) "Ann" none 4)
        (PyKey.int 7) "Bob" (some "B") 9 =
      record_first_attempt [] (PyKey.int 7) "Ann" none 4) :=
  ⟨Or.inl rfl, first_attempt_only_policy [] (PyKey.int 7) "Ann" none 4 "Bob" (some "B") 9
    (Or.inl rfl)⟩

/-- C2. Session gate: for a user whose session state is `answers_submitted`,
any further free-text message is answered with the "already submitted"
notice, the whole state (in particular the stats cache, the durable stats
document and the ghost scoring counter) is unchanged, and the scoring path
is never re-entered. -/
theorem session_gate_blocks_resubmission (key : List String) (st : BotState)
    (uid : Int) (fn : String) (ln : Option String) (text : String)
    (h : statesGet st.user_states uid = some SessionState.answers_submitted) :
    handle_message key st uid fn ln text = (st, [Reply.alreadySubmitted]) ∧
    (handle_message key st uid fn ln text).1.cached_stats = st.cached_stats ∧
    (handle_message key st uid fn ln text).1.disk_stats = st.disk_stats ∧
    (handle_message key st uid fn ln text).1.score_calls = st.score_calls := by
  have hm : handle_message key st uid fn ln text = (st, [Reply.alreadySubmitted]) := by
    simp [handle_message, h]
  exact ⟨hm, by rw [hm], by rw [hm], by rw [hm]⟩

/-- Concrete instance of C2: user 7, already in state `answers_submitted`,
sends another submission and only gets the notice back. -/
theorem session_gate_blocks_resubmission_witness :
    (statesGet (BotState.mk [(7, SessionState.answers_submitted)] (some []) none
        none 1).user_states 7 = some SessionState.answers_submitted) ∧
    (handle_message ["a"] (BotState.mk [(7, SessionState.answers_submitted)]
        (some []) none none 1) 7 "Ann" none "b" =
      (BotState.mk [(7, SessionState.answers_submitted)] (some []) none none 1,
        [Reply.alreadySubmitted]) ∧
    (handle_message ["a"] (BotState.mk [(7, SessionState.answers_submitted)]
        (some []) none none 1) 7 "Ann" none "b").1.cached_stats = some [] ∧
    (handle_message ["a"] (BotState.mk [(7, SessionState.answers_submitted)]
        (some []) none none 1) 7 "Ann" none "b").1.disk_stats = none ∧
    (handle_message ["a"] (BotState.mk [(7, SessionState.answers_submitted)]
        (some []) none none 1) 7 "Ann" none "b").1.score_calls = 1) :=
  ⟨rfl, session_gate_blocks_resubmission ["a"] _ 7 "Ann" none "b" rfl⟩

/-- C5. Length-mismatch frame: when the stripped submission's length differs
from the answer key's, `submit_answers` replies with the wrong-length
rejection, raises nothing, and mutates nothing: the stats cache, the durable
stats document, the session states and the ghost scoring counter are all
unchanged, so scoring is never invoked. -/
theorem length_mismatch_no_mutation (key : List String) (st : BotState)
    (uid : Int) (fn : String) (ln : Option String) (text : String)
    (h : (pyStrip text).length ≠ key.length) :
    submit_answers key st uid fn ln text = (st, [Reply.wrongLength], none) ∧
    (submit_answers key st uid fn ln text).1.cached_stats = st.cached_stats ∧
    (submit_answers key st uid fn ln text).1.disk_stats = st.disk_stats ∧
    (submit_answers key st uid fn ln text).1.user_states = st.user_states ∧
    (submit_answers key st uid fn ln text).1.score_calls = st.score_calls := by
  have hm : submit_answers key st uid fn ln text = (st, [Reply.wrongLength], none) := by
    simp [submit_answers, h]
  exact ⟨hm, by rw [hm], by rw [hm], by rw [hm], by rw [hm]⟩

/-- Concrete instance of C5: an empty submission against a one-answer key is
rejected and the state is untouched. -/
theorem length_mismatch_no_mutation_witness :
    ((pyStrip "").length ≠ (["a"] : List String).length) ∧
    (submit_answers ["a"] (BotState.mk [] none none none 0) 7 "Ann" none "" =
      (BotState.mk [] none none none 0, [Reply.wrongLength], none) ∧
    (submit_answers ["a"] (BotState.mk [] none none none 0) 7 "Ann" none
        "").1.cached_stats = none ∧
    (submit_answers ["a"] (BotState.mk [] none none none 0) 7 "Ann" none
        "").1.disk_stats = none ∧
    (submit_answers ["a"] (BotState.mk [] none none none 0) 7 "Ann" none
        "").1.user_states = [] ∧
    (submit_answers ["a"] (BotState.mk [] none none none 0) 7 "Ann" none
        "").1.score_calls = 0) :=
  ⟨by decide, length_mismatch_no_mutation ["a"] _ 7 "Ann" none "" (by decide)⟩

/-- C3 (amended). With an unpopulated cache, `load_stats` returns the empty
mapping for a missing stats file and for a stats document that fails to
decode as JSON (caching the empty result); a document that decodes to a JSON
object yields its `users` mapping without raising. A document that decodes
to a non-object value, however, raises an uncaught `AttributeError` (see the
counterexample `load_stats_nonobject_raises`). -/
theorem load_stats_default_empty (st : BotState) (hc : st.cached_stats = none) :
    (st.disk_stats = none →
      load_stats st = .ok ([], { st with cached_stats := some [] })) ∧
    (∀ e, st.disk_stats = some (.error e) →
      load_stats st = .ok ([], { st with cached_stats := some [] })) ∧
    (∀ fs, st.disk_stats = some (.ok (.obj fs)) →
      load_stats st = .ok (statsOfUsersJSON (jGet fs "users" (.obj [])),
        { st with cached_stats := some (statsOfUsersJSON (jGet fs "users" (.obj []))) })) := by
  refine ⟨fun h => ?_, fun e h => ?_, fun fs h => ?_⟩ <;> simp [load_stats, hc, h]

/-- Counterexample to C3 as stated: the malformed stats document `[]` (valid
JSON, but not an object) makes `load_stats` raise `AttributeError` instead
of returning an empty mapping. -/
theorem load_stats_nonobject_raises :
    load_stats (BotState.mk [] none (some (.ok (.arr []))) none 0) =
      .error PyErr.attributeError := rfl

/-- Concrete instance of the amended C3: a missing file and an undecodable
document both load as the empty mapping. -/
theorem load_stats_default_empty_witness :
    ((BotState.mk [] none none none 0 : BotState).cached_stats = none) ∧
    (((BotState.mk [] none none none 0 : BotState).disk_stats = none →
      load_stats (BotState.mk [] none none none 0) =
        .ok ([], BotState.mk [] (some []) none none 0)) ∧
    (∀ e, (BotState.mk [] none none none 0 : BotState).disk_stats = some (.error e) →
      load_stats (BotState.mk [] none none none 0) =
        .ok ([], BotState.mk [] (some []) none none 0)) ∧
    (∀ fs, (BotState.mk [] none none none 0 : BotState).disk_stats = some (.ok (.obj fs)) →
      load_stats (BotState.mk [] none none none 0) =
        .ok (statsOfUsersJSON (jGet fs "users" (.obj [])),
          BotState.mk [] (some (statsOfUsersJSON (jGet fs "users" (.obj [])))) none none 0))) :=
  ⟨rfl, load_stats_default_empty (BotState.mk [] none none none 0) rfl⟩

/-- C4 (amended). `load_answer_key` returns the empty sequence, rather than
raising, for a missing file, for a document that fails to decode as JSON,
and for a document that decodes to a JSON object whose `answers` payload is
not a list of strings; on object documents it never raises at all. A
document that decodes to a non-object value, however, raises an uncaught
`AttributeError` — at module load time, so it terminates startup (see the
counterexample `load_answer_key_nonobject_raises`). -/
theorem load_answer_key_degrades :
    (load_answer_key none = .ok []) ∧
    (∀ e, load_answer_key (some (.error e)) = .ok []) ∧
    (∀ fs, asStringList (jGet fs "answers" (.arr [])) = none →
      load_answer_key (some (.ok (.obj fs))) = .ok []) ∧
    (∀ fs, ∃ v, load_answer_key (some (.ok (.obj fs))) = .ok v) := by
  refine ⟨rfl, fun e => rfl, fun fs h => ?_, fun fs => ?_⟩
  · simp [load_answer_key, h]
  · cases h : asStringList (jGet fs "answers" (.arr [])) with
    | none => exact ⟨[], by simp [load_answer_key, h]⟩
    | some answers => exact ⟨answers, by simp [load_answer_key, h]⟩

/-- Counterexample to C4 as stated: an answer-key document that is valid
JSON but not an object (here `[]`) makes `load_answer_key` raise
`AttributeError` instead of returning an empty sequence — and it is called
at module load, so the exception terminates the process. -/
theorem load_answer_key_nonobject_raises :
    load_answer_key (some (.ok (.arr []))) = .error PyErr.attributeError := rfl

/-- Concrete instance of the amended C4: a wrong-element-type payload
(`answers` holding a number) degrades to the empty sequence. -/
theorem load_answer_key_degrades_witness :
    (asStringList (jGet [("answers", JSON.num 3)] "answers" (.arr [])) = none) ∧
    load_answer_key (some (.ok (.obj [("answers", JSON.num 3)]))) = .ok [] :=
  ⟨rfl, load_answer_key_degrades.2.2.1 [("answers", JSON.num 3)] rfl⟩

/-- C7. `calculate_percentage` yields `0` when the total is `0`, yields
Python's `round(correct / total * 100)` (round half to even, over exact
rationals) when the total is positive, and never raises — in particular it
never divides by zero. -/
theorem percentage_formula (c t : Int) (hc : 0 ≤ c) (hct : c ≤ t) :
    (t = 0 → calculate_percentage c t = .ok 0) ∧
    (0 < t → calculate_percentage c t =
      .ok (pyRound ((c : ℚ) / (t : ℚ) * 100))) ∧
    (∃ v, calculate_percentage c t = .ok v) := by
  refine ⟨fun h => by simp [calculate_percentage, h], fun h => ?_, ?_⟩
  · have ht : t ≠ 0 := ne_of_gt h
    have htq : (t : ℚ) ≠ 0 := Int.cast_ne_zero.mpr ht
    simp [calculate_percentage, pyDiv, ht, htq, Except.map]
  · by_cases h : t = 0
    · exact ⟨0, by simp [calculate_percentage, h]⟩
    · have htq : (t : ℚ) ≠ 0 := Int.cast_ne_zero.mpr h
      exact ⟨pyRound ((c : ℚ) / (t : ℚ) * 100),
        by simp [calculate_percentage, pyDiv, h, htq, Except.map]⟩

/-- Concrete instance of C7: two of three yields `round(200/3) = 67`. -/
theorem percentage_formula_witness :
    ((0 : Int) ≤ 2 ∧ (2 : Int) ≤ 3) ∧
    (((3 : Int) = 0 → calculate_percentage 2 3 = .ok 0) ∧
    ((0 : Int) < 3 → calculate_percentage 2 3 =
      .ok (pyRound ((2 : ℚ) / (3 : ℚ) * 100))) ∧
    (∃ v, calculate_percentage 2 3 = .ok v)) :=
  ⟨⟨by decide, by decide⟩, percentage_formula 2 3 (by decide) (by decide)⟩

/-- C10. Records loaded from the durable stats document are keyed by the
string form of the user id; the submission handler looks up the integer id.
Hence on a freshly loaded stats mapping (all keys strings), the integer
lookup always misses and `record_first_attempt` always takes the
set/replace (first-attempt) branch — an existing record is only matched when
it was inserted under the integer key during the same process lifetime. -/
theorem string_keys_miss_int_lookup (j : JSON) (stats : Stats)
    (hk : ∀ k ∈ stats.map Prod.fst, ∃ s, k = PyKey.str s)
    (uid : Int) (fn : String) (ln : Option String) (c : Int) :
    (∀ k ∈ (statsOfUsersJSON j).map Prod.fst, ∃ s, k = PyKey.str s) ∧
    dictGet stats (PyKey.int uid) = none ∧
    record_first_attempt stats (PyKey.int uid) fn ln c =
      dictSet stats (PyKey.int uid)
        { first_name := fn, last_name := ln, scores := [c] } := by
  have hload : ∀ k ∈ (statsOfUsersJSON j).map Prod.fst, ∃ s, k = PyKey.str s := by
    cases j with
    | obj fs =>
      intro k hkmem
      simp only [statsOfUsersJSON, List.map_map, List.mem_map] at hkmem
      obtain ⟨p, _, hp⟩ := hkmem
      exact ⟨p.1, hp.symm⟩
    | null => intro k hkmem; simp [statsOfUsersJSON] at hkmem
    | bool b => intro k hkmem; simp [statsOfUsersJSON] at hkmem
    | num n => intro k hkmem; simp [statsOfUsersJSON] at hkmem
    | str s => intro k hkmem; simp [statsOfUsersJSON] at hkmem
    | arr l => intro k hkmem; simp [statsOfUsersJSON] at hkmem
  have hmiss : dictGet stats (PyKey.int uid) = none := by
    have : stats.find? (fun p => p.1 == PyKey.int uid) = none := by
      rw [List.find?_eq_none]
      intro p hp
      obtain ⟨s, hs⟩ := hk p.1 (List.mem_map_of_mem Prod.fst hp)
      simp [hs]
    simp [dictGet, this]
  exact ⟨hload, hmiss, by simp [record_first_attempt, hmiss]⟩

/-- Concrete instance of C10: user 5's record sits under the string key
`"5"`, so a fresh submission by user 5 misses it and takes the set branch. -/
theorem string_keys_miss_int_lookup_witness :
    (∀ k ∈ ([(PyKey.str "5", UserRecord.mk "Ann" none [3])] : Stats).map Prod.fst,
      ∃ s, k = PyKey.str s) ∧
    ((∀ k ∈ (statsOfUsersJSON (.obj [("5", .obj [])])).map Prod.fst,
      ∃ s, k = PyKey.str s) ∧
    dictGet [(PyKey.str "5", UserRecord.mk "Ann" none [3])] (PyKey.int 5) = none ∧
    record_first_attempt [(PyKey.str "5", UserRecord.mk "Ann" none [3])]
        (PyKey.int 5) "Ann" none 2 =
      dictSet [(PyKey.str "5", UserRecord.mk "Ann" none [3])] (PyKey.int 5)
        { first_name := "Ann", last_name := none, scores := [2] }) :=
  ⟨fun k hkmem => ⟨"5", by simpa using hkmem⟩,
    string_keys_miss_int_lookup (.obj [("5", .obj [])])
      [(PyKey.str "5", UserRecord.mk "Ann" none [3])]
      (fun k hkmem => ⟨"5", by simpa using hkmem⟩) 5 "Ann" none 2⟩

/-! Character-level lemmas for the idempotence of `normalize_answer`. -/

theorem toNat_ofNat_of_lt {n : Nat} (h : n < 0xd800) : (Char.ofNat n).toNat = n := by
  rw [Char.ofNat, dif_pos (Or.inl h)]
  rfl

theorem pyToLower_toNat_of_upper {c : Char} (h : 65 ≤ c.toNat ∧ c.toNat ≤ 90) :
    (pyToLower c).toNat = c.toNat + 32 := by
  rw [pyToLower, if_pos h]
  exact toNat_ofNat_of_lt (by omega)

theorem isPySpace_pyToLower (c : Char) : isPySpace (pyToLower c) = isPySpace c := by
  by_cases h : 65 ≤ c.toNat ∧ c.toNat ≤ 90
  · have h1 : (pyToLower c).toNat = c.toNat + 32 := pyToLower_toNat_of_upper h
    have hl : isPySpace (pyToLower c) = false := by
      simp only [isPySpace, h1, Bool.or_eq_false_iff, beq_eq_false_iff_ne, ne_eq]
      omega
    have hr : isPySpace c = false := by
      simp only [isPySpace, Bool.or_eq_false_iff, beq_eq_false_iff_ne, ne_eq]
      omega
    rw [hl, hr]
  · rw [pyToLower, if_neg h]

theorem pyToLower_pyToLower (c : Char) : pyToLower (pyToLower c) = pyToLower c := by
  by_cases h : 65 ≤ c.toNat ∧ c.toNat ≤ 90
  · have h1 : (pyToLower c).toNat = c.toNat + 32 := pyToLower_toNat_of_upper h
    generalize hd : pyToLower c = d at h1 ⊢
    rw [pyToLower, if_neg (by omega)]
  · have hc : pyToLower c = c := by rw [pyToLower, if_neg h]
    rw [hc, hc]

/-- C8. `normalize_answer` (strip all whitespace, lowercase) is idempotent:
normalizing an already-normalized string changes nothing. -/
theorem normalize_idempotent (x : String) :
    normalize_answer (normalize_answer x) = normalize_answer x := by
  unfold normalize_answer
  apply congrArg String.mk
  have hdata : (String.mk ((x.data.filter (fun c => !isPySpace c)).map pyToLower)).data =
      (x.data.filter (fun c => !isPySpace c)).map pyToLower := rfl
  rw [hdata]
  rw [List.filter_map]
  have hpred : ((x.data.filter (fun c => !isPySpace c)).filter
      ((fun c => !isPySpace c) ∘ pyToLower)) =
      (x.data.filter (fun c => !isPySpace c)).filter (fun c => !isPySpace c) :=
    List.filter_congr (fun a _ => by simp [Function.comp, isPySpace_pyToLower])
  rw [hpred, List.filter_filter]
  have hff : (x.data.filter fun a => !isPySpace a && !isPySpace a) =
      x.data.filter (fun c => !isPySpace c) :=
    List.filter_congr (fun a _ => by simp)
  rw [hff, List.map_map]
  exact List.map_congr_left (fun a _ => pyToLower_pyToLower a)

/-! Lemmas for the scoring loop (claim C6). -/

theorem foldl_scoreStep (key : List String) :
    ∀ (s : List Char) (i c : Nat) (m : List (Nat × Char)),
    List.foldl (scoreStep key) (c, m) (List.enumFrom i s) =
      (c + cntFrom key i s, m ++ misFrom key i s) := by
  intro s
  induction s with
  | nil => intro i c m; simp [cntFrom, misFrom]
  | cons a rest ih =>
    intro i c m
    rw [List.enumFrom_cons, List.foldl_cons]
    by_cases hm : (i < key.length ∧
        normalize_answer (String.singleton a) = normalize_answer (key.getD i ""))
    · have hstep : scoreStep key (c, m) (i, a) = (c + 1, m) := by
        simp [scoreStep, hm]
      have hb : stepMatchB key i a = true := decide_eq_true hm
      rw [hstep, ih]
      simp [cntFrom, misFrom, hb]
      omega
    · have hstep : scoreStep key (c, m) (i, a) = (c, m ++ [(i + 1, a)]) := by
        simp only [scoreStep]
        rw [if_neg hm]
      have hb : stepMatchB key i a = false := decide_eq_false hm
      rw [hstep, ih]
      simp [cntFrom, misFrom, hb]

theorem cntFrom_range (key : List String) :
    ∀ (s : List Char) (i : Nat),
    cntFrom key i s = ((List.range s.length).filter
      (fun j => stepMatchB key (i + j) (s.getD j ' '))).length := by
  intro s
  induction s with
  | nil => intro i; simp [cntFrom]
  | cons a rest ih =>
    intro i
    rw [List.length_cons, List.range_succ_eq_map, List.filter_cons]
    have hmap : (List.map Nat.succ (List.range rest.length)).filter
        (fun j => stepMatchB key (i + j) ((a :: rest).getD j ' ')) =
        List.map Nat.succ ((List.range rest.length).filter
          ((fun j => stepMatchB key (i + j) ((a :: rest).getD j ' ')) ∘ Nat.succ)) :=
      List.filter_map _ _
    have hcong : (List.range rest.length).filter
        ((fun j => stepMatchB key (i + j) ((a :: rest).getD j ' ')) ∘ Nat.succ) =
        (List.range rest.length).filter
          (fun j => stepMatchB key ((i + 1) + j) (rest.getD j ' ')) := by
      refine List.filter_congr (fun j hj => ?_)
      simp only [Function.comp, List.getD_cons_succ]
      have harith : i + (j + 1) = (i + 1) + j := by omega
      rw [harith]
    cases hb : stepMatchB key i a with
    | true =>
      have h0 : stepMatchB key (i + 0) ((a :: rest).getD 0 ' ') = true := hb
      rw [if_pos h0, List.length_cons, hmap, hcong, List.length_map]
      simp [cntFrom, hb, ih]
      omega
    | false =>
      have h0 : stepMatchB key (i + 0) ((a :: rest).getD 0 ' ') = false := hb
      rw [if_neg (by rw [h0]; simp), hmap, hcong, List.length_map]
      simp [cntFrom, hb, ih]

theorem misFrom_range (key : List String) :
    ∀ (s : List Char) (i : Nat),
    misFrom key i s = ((List.range s.length).filter
      (fun j => !stepMatchB key (i + j) (s.getD j ' '))).map
      (fun j => (i + j + 1, s.getD j ' ')) := by
  intro s
  induction s with
  | nil => intro i; simp [misFrom]
  | cons a rest ih =>
    intro i
    rw [List.length_cons, List.range_succ_eq_map, List.filter_cons]
    have hmap : (List.map Nat.succ (List.range rest.length)).filter
        (fun j => !stepMatchB key (i + j) ((a :: rest).getD j ' ')) =
        List.map Nat.succ ((List.range rest.length).filter
          ((fun j => !stepMatchB key (i + j) ((a :: rest).getD j ' ')) ∘ Nat.succ)) :=
      List.filter_map _ _
    have hcong : (List.range rest.length).filter
        ((fun j => !stepMatchB key (i + j) ((a :: rest).getD j ' ')) ∘ Nat.succ) =
        (List.range rest.length).filter
          (fun j => !stepMatchB key ((i + 1) + j) (rest.getD j ' ')) := by
      refine List.filter_congr (fun j hj => ?_)
      simp only [Function.comp, List.getD_cons_succ]
      have harith : i + (j + 1) = (i + 1) + j := by omega
      rw [harith]
    have hmapfun : List.map (fun j => (i + j + 1, (a :: rest).getD j ' '))
        (List.map Nat.succ ((List.range rest.length).filter
          (fun j => !stepMatchB key ((i + 1) + j) (rest.getD j ' ')))) =
        List.map (fun j => ((i + 1) + j + 1, rest.getD j ' '))
          ((List.range rest.length).filter
            (fun j => !stepMatchB key ((i + 1) + j) (rest.getD j ' '))) := by
      rw [List.map_map]
      refine List.map_congr_left (fun j hj => ?_)
      simp only [Function.comp, List.getD_cons_succ]
      have harith : i + (j + 1) + 1 = (i + 1) + j + 1 := by omega
      rw [harith]
    cases hb : stepMatchB key i a with
    | true =>
      have h0 : (!stepMatchB key (i + 0) ((a :: rest).getD 0 ' ')) = false := by
        show (!stepMatchB key i a) = false
        rw [hb]
        rfl
      rw [if_neg (by rw [h0]; simp), hmap, hcong, hmapfun]
      simp [misFrom, hb, ih]
    | false =>
      have h0 : (!stepMatchB key (i + 0) ((a :: rest).getD 0 ' ')) = true := by
        show (!stepMatchB key i a) = true
        rw [hb]
        rfl
      rw [if_pos h0, List.map_cons, hmap, hcong, hmapfun]
      simp [misFrom, hb, ih]

theorem calc_pct_two_of_three : calculate_percentage 2 3 = .ok 67 := by
  have hfl : ⌊((2 : ℚ) / 3 * 100)⌋ = 66 := by norm_num
  simp only [calculate_percentage, pyDiv]
  norm_num [Except.map, pyRound, hfl]

theorem score_eq_from (s : List Char) (key : List String) :
    score s key = (cntFrom key 0 s, misFrom key 0 s) := by
  unfold score
  rw [List.enum_eq_enumFrom, foldl_scoreStep]
  simp

/-- C6. Scoring: on equal-length inputs, the correct count is the number of
positions whose normalized submission character equals the normalized key
entry, and the mistakes are exactly `(i + 1, submission[i])` for the other
positions, in order; concretely, key `["a","b","c"]` against submission
`"abd"` yields 2 correct, mistakes `[(3, 'd')]` and percentage 67. -/
theorem scoring_pointwise (s : List Char) (key : List String)
    (h : s.length = key.length) :
    (score s key).1 = ((List.range s.length).filter (fun i => matchAt s key i)).length ∧
    (score s key).2 = ((List.range s.length).filter (fun i => !matchAt s key i)).map
      (fun i => (i + 1, s.getD i ' ')) ∧
    score ("abd".data) ["a", "b", "c"] = (2, [(3, 'd')]) ∧
    calculate_percentage 2 3 = .ok 67 := by
  have hmatch : ∀ j ∈ List.range s.length,
      stepMatchB key (0 + j) (s.getD j ' ') = matchAt s key j := by
    intro j hj
    rw [List.mem_range] at hj
    have hjk : j < key.length := h ▸ hj
    simp only [stepMatchB, matchAt, Nat.zero_add]
    refine decide_eq_decide.mpr ⟨fun hp => hp.2, fun hp => ⟨hjk, hp⟩⟩
  refine ⟨?_, ?_, by decide, calc_pct_two_of_three⟩
  · rw [score_eq_from, cntFrom_range]
    exact congrArg List.length (List.filter_congr hmatch)
  · rw [score_eq_from, misFrom_range]
    have hfil : (List.range s.length).filter
        (fun j => !stepMatchB key (0 + j) (s.getD j ' ')) =
        (List.range s.length).filter (fun i => !matchAt s key i) :=
      List.filter_congr (fun j hj => by rw [hmatch j hj])
    rw [hfil]
    exact List.map_congr_left (fun j hj => by rw [Nat.zero_add])

/-- Concrete instance of C6 at the claim's own example. -/
theorem scoring_pointwise_witness :
    (("abd".data).length = (["a", "b", "c"] : List String).length) ∧
    ((score ("abd".data) ["a", "b", "c"]).1 =
      ((List.range ("abd".data).length).filter
        (fun i => matchAt ("abd".data) ["a", "b", "c"] i)).length ∧
    (score ("abd".data) ["a", "b", "c"]).2 =
      ((List.range ("abd".data).length).filter
        (fun i => !matchAt ("abd".data) ["a", "b", "c"] i)).map
        (fun i => (i + 1, ("abd".data).getD i ' ')) ∧
    score ("abd".data) ["a", "b", "c"] = (2, [(3, 'd')]) ∧
    calculate_percentage 2 3 = .ok 67) :=
  ⟨rfl, scoring_pointwise ("abd".data) ["a", "b", "c"] rfl⟩

/-! Lemmas for the leaderboard view (claim C9). -/

theorem calculate_percentage_ok (c t : Int) :
    calculate_percentage c t = .ok (pctValue c t) := by
  by_cases h : t = 0
  · simp [calculate_percentage, pctValue, h]
  · have htq : (t : ℚ) ≠ 0 := Int.cast_ne_zero.mpr h
    simp [calculate_percentage, pctValue, pyDiv, h, htq, Except.map]

theorem show_stats_lines_join (n : Int) (l : Stats) :
    show_stats_lines n l = .ok ((l.map
      (fun p => statsLine p.2 (pctValue (userTotal p.2) n))).foldr
      (fun a b => a ++ b) "") := by
  induction l with
  | nil => simp [show_stats_lines]
  | cons p rest ih =>
    simp [show_stats_lines, calculate_percentage_ok, ih]

/-- C9. Leaderboard: `show_stats` renders the users sorted in descending
order of `sum(scores)` (the totals of the sorted list are pairwise
descending), one line per user built from `calculate_percentage(total,
len(key))`; concretely, records with totals `[5, 10, 3]` are listed as
`[10, 5, 3]`. -/
theorem leaderboard_sorted_desc (stats : Stats) (key : List String)
    (us : List (Int × SessionState)) (dd : DiskDoc)
    (de : Option (List ExcelRow)) (sc : Nat) :
    List.Pairwise (fun a b => userTotal b.2 ≤ userTotal a.2) (sorted_stats stats) ∧
    show_stats key (BotState.mk us (some stats) dd de sc) =
      .ok ("Статистика:\n" ++ ((sorted_stats stats).map
        (fun p => statsLine p.2 (pctValue (userTotal p.2) (key.length : Int)))).foldr
        (fun a b => a ++ b) "", BotState.mk us (some stats) dd de sc) ∧
    (sorted_stats [(PyKey.int 1, UserRecord.mk "A" none [5]),
      (PyKey.int 2, UserRecord.mk "B" none [10]),
      (PyKey.int 3, UserRecord.mk "C" none [3])]).map (fun p => userTotal p.2) =
      [10, 5, 3] := by
  refine ⟨?_, ?_, by simp [sorted_stats, List.mergeSort, List.merge, userTotal]⟩
  · have htrans : ∀ (a b c : PyKey × UserRecord),
        (fun x y : PyKey × UserRecord => decide (userTotal y.2 ≤ userTotal x.2)) a b →
        (fun x y : PyKey × UserRecord => decide (userTotal y.2 ≤ userTotal x.2)) b c →
        (fun x y : PyKey × UserRecord => decide (userTotal y.2 ≤ userTotal x.2)) a c := by
      intro a b c hab hbc
      simp only [decide_eq_true_eq] at hab hbc ⊢
      exact le_trans hbc hab
    have htotal : ∀ (a b : PyKey × UserRecord),
        ((fun x y : PyKey × UserRecord => decide (userTotal y.2 ≤ userTotal x.2)) a b ||
         (fun x y : PyKey × UserRecord => decide (userTotal y.2 ≤ userTotal x.2)) b a) := by
      intro a b
      simp only [Bool.or_eq_true, decide_eq_true_eq]
      exact le_total (userTotal b.2) (userTotal a.2)
    have hp := List.sorted_mergeSort htrans htotal stats
    exact hp.imp (fun h => by simpa using h)
  · simp [show_stats, load_stats, show_stats_lines_join]

end TelegramBot
